import Mathlib

/-!
Verification development for `archive_system.py`: a shallow embedding of the
mtree manifest parser, the installed-package database loader, the three-way
reconciler and the per-path verifier, together with theorems settling the
specification claims about them.

Python byte strings are modelled as `List Nat` (one `Nat` per byte), Python
`dict`s as association lists with first-match lookup and in-place overwrite,
and the filesystem observations made by the verifier as an explicit record of
per-call results (`FsWorld`), so that a path that changes between two system
calls is representable.  Python exceptions are modelled with `Except PyErr`.
-/

namespace ArchiveSystem

/-- Python `bytes` values: a list of byte values. -/
abbrev ByteStr := List Nat

/-- The bytes of an ASCII Lean string, used for concrete byte-string literals. -/
def strBytes (s : String) : ByteStr := s.data.map Char.toNat

section PyDict

variable {α β : Type} [DecidableEq α]

/-- Python `d.get(k)` / `d[k]`: the first binding of the key, if any. -/
def dget : List (α × β) → α → Option β
  | [], _ => none
  | (k', v) :: t, k => if k' = k then some v else dget t k

/-- Python `d[k] = v`: replace the existing binding in place, else append. -/
def dinsert : List (α × β) → α → β → List (α × β)
  | [], k, v => [(k, v)]
  | (k', v') :: t, k, v => if k' = k then (k, v) :: t else (k', v') :: dinsert t k v

/-- Python `del d[k]`: drop the bindings of a key. -/
def derase : List (α × β) → α → List (α × β)
  | [], _ => []
  | (k', v) :: t, k => if k' = k then derase t k else (k', v) :: derase t k

/-- Python `d.update(e)`: insert the new bindings left to right. -/
def dupdate (d : List (α × β)) (e : List (α × β)) : List (α × β) :=
  e.foldl (fun acc p => dinsert acc p.1 p.2) d

/-- Python `dict(e)` built from a pair sequence: later duplicates win. -/
def dictOf (e : List (α × β)) : List (α × β) := dupdate [] e

/-- The last binding of a key in a raw pair sequence. -/
def dgetLast : List (α × β) → α → Option β
  | [], _ => none
  | (k', v) :: t, k =>
      match dgetLast t k with
      | some w => some w
      | none => if k' = k then some v else none

end PyDict

/-- ASCII whitespace bytes, as recognised by Python `bytes.split`/`strip`. -/
def isSpaceByte (b : Nat) : Bool :=
  b == 32 || b == 9 || b == 10 || b == 13 || b == 11 || b == 12

/-- Python `line.lstrip()` on bytes. -/
def lstripB (l : ByteStr) : ByteStr := l.dropWhile isSpaceByte

/-- Python `s.strip()` on bytes. -/
def bstrip (l : ByteStr) : ByteStr :=
  ((l.dropWhile isSpaceByte).reverse.dropWhile isSpaceByte).reverse

/-- Accumulator pass behind `splitWordsB`. -/
def splitWordsAux : ByteStr → ByteStr → List ByteStr
  | [], acc => if acc = [] then [] else [acc.reverse]
  | b :: t, acc =>
      if isSpaceByte b then
        if acc = [] then splitWordsAux t [] else acc.reverse :: splitWordsAux t []
      else splitWordsAux t (b :: acc)

/-- Python `line.split()` on bytes: split on whitespace runs, no empty words. -/
def splitWordsB (l : ByteStr) : List ByteStr := splitWordsAux l []

/-- The part of a byte string before the first `=` and the part after it
(Python `word.partition(b'=')`, keeping only the outer parts). -/
def splitFirstEq : ByteStr → ByteStr × ByteStr
  | [] => ([], [])
  | b :: t =>
      if b = 61 then ([], t)
      else
        let p := splitFirstEq t
        (b :: p.1, p.2)

/-- Source `parse_keyword`: split a `key=value` word on the first `=` and
strip both parts; a word with no `=` gets an empty value. -/
def parse_keyword (word : ByteStr) : ByteStr × ByteStr :=
  let p := splitFirstEq word
  (bstrip p.1, bstrip p.2)

/-- An octal-digit byte (`[0-7]` in the source regex). -/
def isOctal (b : Nat) : Prop := 48 ≤ b ∧ b ≤ 55

instance (b : Nat) : Decidable (isOctal b) := by unfold isOctal; infer_instance

/-- The byte value denoted by three octal-digit bytes
(source `octal_match_to_char`). -/
def octalVal (d1 d2 d3 : Nat) : Nat := (d1 - 48) * 64 + (d2 - 48) * 8 + (d3 - 48)

/-- Whether a byte string begins with three octal-digit bytes: the lookahead
of the `OCTALS_REFS` regex after a backslash. -/
def escapeDigits : ByteStr → Bool
  | d1 :: d2 :: d3 :: _ => decide (isOctal d1 ∧ isOctal d2 ∧ isOctal d3)
  | _ => false

/-- Source `OCTALS_REFS.sub(octal_match_to_char, word)`: scan left to right;
a backslash followed by three octal-digit bytes is replaced by the byte they
denote and the scan resumes after them, every other byte passes through.
The second match arm is unreachable because `escapeDigits rest` forces the
three-byte shape. -/
def octalSub : ByteStr → ByteStr
  | [] => []
  | b :: rest =>
      if b = 92 ∧ escapeDigits rest = true then
        match rest with
        | d1 :: d2 :: d3 :: rest3 => octalVal d1 d2 d3 :: octalSub rest3
        | _ => []
      else b :: octalSub rest

/-- Strict UTF-8 decoding of a byte string (the model of Python
`bytes.decode('utf-8')`): `none` on any malformed, overlong, surrogate or
out-of-range sequence. -/
def utf8Decode : ByteStr → Option (List Char)
  | [] => some []
  | b :: t =>
      if b ≤ 127 then (utf8Decode t).map (fun cs => Char.ofNat b :: cs)
      else if 194 ≤ b ∧ b ≤ 223 then
        match t with
        | c1 :: t1 =>
            if 128 ≤ c1 ∧ c1 ≤ 191 then
              (utf8Decode t1).map (fun cs => Char.ofNat ((b - 192) * 64 + (c1 - 128)) :: cs)
            else none
        | [] => none
      else if 224 ≤ b ∧ b ≤ 239 then
        match t with
        | c1 :: c2 :: t2 =>
            if (if b = 224 then 160 else 128) ≤ c1 ∧ c1 ≤ (if b = 237 then 159 else 191)
                ∧ 128 ≤ c2 ∧ c2 ≤ 191 then
              (utf8Decode t2).map
                (fun cs => Char.ofNat ((b - 224) * 4096 + (c1 - 128) * 64 + (c2 - 128)) :: cs)
            else none
        | _ => none
      else if 240 ≤ b ∧ b ≤ 244 then
        match t with
        | c1 :: c2 :: c3 :: t3 =>
            if (if b = 240 then 144 else 128) ≤ c1 ∧ c1 ≤ (if b = 244 then 143 else 191)
                ∧ 128 ≤ c2 ∧ c2 ≤ 191 ∧ 128 ≤ c3 ∧ c3 ≤ 191 then
              (utf8Decode t3).map
                (fun cs =>
                  Char.ofNat ((b - 240) * 262144 + (c1 - 128) * 4096 + (c2 - 128) * 64 + (c3 - 128)) :: cs)
            else none
        | _ => none
      else none

/-- Source `parse_path`: substitute the octal escapes at the byte level first,
then decode the whole resulting byte string as UTF-8 in one pass.  Python
raises `UnicodeDecodeError` on invalid UTF-8; that is modelled as `none`. -/
def parse_path (word : ByteStr) : Option String :=
  (utf8Decode (octalSub word)).map String.mk

/-- Python `s.split('/')` on a character list (empty fields kept). -/
def splitOnSlash : List Char → List (List Char)
  | [] => [[]]
  | c :: t =>
      if c = '/' then [] :: splitOnSlash t
      else
        match splitOnSlash t with
        | h :: r => (c :: h) :: r
        | [] => [[c]]

/-- Python `'/'.join(comps)` on character lists. -/
def joinSlash (l : List (List Char)) : List Char := List.intercalate ['/'] l

/-- The component loop of `posixpath.normpath`: drop empty and `.` components,
let `..` pop the previous component except at an unrooted start or after a
surviving `..`. -/
def normpathComps (slashes : Nat) : List (List Char) → List (List Char) → List (List Char)
  | acc, [] => acc
  | acc, comp :: rest =>
      if comp = [] ∨ comp = ['.'] then normpathComps slashes acc rest
      else if comp ≠ ['.', '.'] ∨ (slashes = 0 ∧ acc = []) ∨
          (acc ≠ [] ∧ acc.getLast? = some ['.', '.']) then
        normpathComps slashes (acc ++ [comp]) rest
      else if acc ≠ [] then normpathComps slashes acc.dropLast rest
      else normpathComps slashes acc rest

/-- `os.path.normpath` for POSIX paths, as called by the parser on every
joined path before yielding it. -/
def normpath (s : String) : String :=
  match s.data with
  | [] => "."
  | c :: t =>
      let slashes : Nat :=
        if c = '/' then if t.take 1 = ['/'] ∧ ¬ t.take 2 = ['/', '/'] then 2 else 1
        else 0
      let body := joinSlash (normpathComps slashes [] (splitOnSlash (c :: t)))
      let full := List.replicate slashes '/' ++ body
      if full = [] then "." else String.mk full

/-- `os.path.join` for POSIX paths restricted to two arguments, as called by
the parser (`os.path.join(root, path)`). -/
def pjoin (a b : String) : String :=
  if b.data.head? = some '/' then b
  else if a.data = [] ∨ a.data.getLast? = some '/' then String.mk (a.data ++ b.data)
  else String.mk (a.data ++ '/' :: b.data)

/-- Python `c in s` for a single character (used for `'/' in path`). -/
def containsChar (c : Char) (s : String) : Bool := s.data.any (fun x => x == c)

/-- Python `s.lower()` restricted to ASCII, which is all the verifier ever
lowercases (hex digest strings). -/
def strToLower (s : String) : String := String.mk (s.data.map Char.toLower)

/-- The `type` attribute key as bytes. -/
def bType : ByteStr := strBytes "type"

/-- The `size` attribute key as bytes. -/
def bSize : ByteStr := strBytes "size"

/-- The `md5digest` attribute key as bytes. -/
def bMd5digest : ByteStr := strBytes "md5digest"

/-- The `sha256digest` attribute key as bytes. -/
def bSha256digest : ByteStr := strBytes "sha256digest"

/-- The `dir` attribute value as bytes. -/
def bDir : ByteStr := strBytes "dir"

/-- The `file` attribute value as bytes. -/
def bFile : ByteStr := strBytes "file"

/-- The `link` attribute value as bytes. -/
def bLink : ByteStr := strBytes "link"

/-- The attribute mapping attached to one manifest entry or to the global
scope: a Python dict from byte-string keys to byte-string values. -/
abbrev Dict := List (ByteStr × ByteStr)

/-- Source `get_type`: `keywords.get(b'type')`. -/
def get_type (keywords : Dict) : Option ByteStr := dget keywords bType

/-- The body of the `parse_mtree` loop for one non-blank, non-comment line,
already split into words.  Arguments are the current global-attribute scope
and directory context; the result is the updated scope, the updated context,
and the yielded `(absolute path, keywords)` entry when the line is a path
entry.  `none` models an uncaught exception (`words[0]` on an empty split, or
`UnicodeDecodeError` from `parse_path`). -/
def processWords (global_keywords : Dict) (root : String) (words : List ByteStr) :
    Option (Dict × String × Option (String × Dict)) :=
  match words with
  | [] => none
  | first_word :: rest =>
      let parsed_keywords := dictOf (rest.map parse_keyword)
      if first_word = strBytes "/set" then
        some (dupdate global_keywords parsed_keywords, root, none)
      else if first_word = strBytes "/unset" then
        some (parsed_keywords.foldl (fun d p => derase d p.1) global_keywords, root, none)
      else
        match parse_path first_word with
        | none => none
        | some path =>
            let keywords := dupdate global_keywords parsed_keywords
            let abspath := normpath (pjoin root path)
            let root' :=
              if get_type keywords = some bDir ∧ containsChar '/' path = false then abspath
              else root
            some (global_keywords, root', some (abspath, keywords))

/-- One raw line of the `parse_mtree` loop: left-strip, skip blank lines and
`#` comments, otherwise split into words and process them. -/
def processLine (global_keywords : Dict) (root : String) (line : ByteStr) :
    Option (Dict × String × Option (String × Dict)) :=
  match lstripB line with
  | [] => some (global_keywords, root, none)
  | b :: t =>
      if b = 35 then some (global_keywords, root, none)
      else processWords global_keywords root (splitWordsB (b :: t))

/-- The `parse_mtree` loop over the lines after the header, threading the
global scope and the directory context and collecting the yielded entries. -/
def parse_mtree_lines (global_keywords : Dict) (root : String) :
    List ByteStr → Option (List (String × Dict))
  | [] => some []
  | line :: rest =>
      match processLine global_keywords root line with
      | none => none
      | some (g', root', out) =>
          match parse_mtree_lines g' root' rest with
          | none => none
          | some es =>
              some (match out with
                    | some e => e :: es
                    | none => es)

/-- Source `parse_mtree` on the decompressed line sequence of one manifest:
check the `#mtree` signature on the left-stripped first line, then run the
entry loop with an empty global scope.  `none` models the fatal outcomes
(missing first line, failed signature assert, uncaught parse exception). -/
def parse_mtree (lines : List ByteStr) (root : String) : Option (List (String × Dict)) :=
  match lines with
  | [] => none
  | header :: rest =>
      if (lstripB header).take 6 = strBytes "#mtree" then parse_mtree_lines [] root rest
      else none

/-- One insertion step of `read_all_mtrees`: when the path already has an
entry the stored and new `type` attributes must agree (the `assert`; `none`
models the fatal `AssertionError`), then the new keyword set overwrites the
stored one. -/
def insert_mtree_entry (entries : List (String × Dict)) (path : String) (keywords : Dict) :
    Option (List (String × Dict)) :=
  match dget entries path with
  | some prev => if get_type prev = get_type keywords then some (dinsert entries path keywords) else none
  | none => some (dinsert entries path keywords)

/-- The `read_all_mtrees` insertion loop from a given accumulator over a flat
stream of parsed entries. -/
def load_entries_from (entries : List (String × Dict)) (l : List (String × Dict)) :
    Option (List (String × Dict)) :=
  l.foldlM (fun acc e => insert_mtree_entry acc e.1 e.2) entries

/-- Source `read_all_mtrees`, over the concatenated entry stream of all
manifests: build the aggregate path-to-keywords mapping, checking type
consistency on re-inserted paths. -/
def read_all_mtrees (l : List (String × Dict)) : Option (List (String × Dict)) :=
  load_entries_from [] l

deriving instance DecidableEq for Except

/-- The Python exceptions that can arise inside verification. -/
inductive PyErr where
  | osError
  | assertionError
  | typeError
  | valueError
  | unicodeDecodeError
deriving DecidableEq

/-- The filesystem observations one `same_as_installed` call can make, one
field per system call in source order.  Separate fields for separate calls
let the model express a path whose state changes between two calls (a file
that vanishes mid-verification). -/
structure FsWorld where
  uid : Nat
  isfile_type : Bool
  isdir_type : Bool
  islink_type : Bool
  isfile_size : Bool
  getsize : Except Unit Int
  isfile_md5 : Bool
  read_md5 : Except Unit ByteStr
  isfile_sha : Bool
  read_sha : Except Unit ByteStr

/-- Digit-run accumulator behind `pyIntOfBytes`. -/
def parseDigitsAux (acc : Nat) : ByteStr → Option Nat
  | [] => some acc
  | d :: t => if 48 ≤ d ∧ d ≤ 57 then parseDigitsAux (acc * 10 + (d - 48)) t else none

/-- Python `int(bytes)`: strip whitespace, optional sign, decimal digits;
`none` models `ValueError`. -/
def pyIntOfBytes (s : ByteStr) : Option Int :=
  match bstrip s with
  | [] => none
  | b :: t =>
      if b = 43 then
        if t = [] then none else (parseDigitsAux 0 t).map Int.ofNat
      else if b = 45 then
        if t = [] then none else (parseDigitsAux 0 t).map (fun n => -(n : Int))
      else (parseDigitsAux 0 (b :: t)).map Int.ofNat

/-- Source `type_eq`: the expected `type` attribute against the on-disk kind
(`os.path.isfile` / `isdir` / `islink`, which do not raise). -/
def type_eq (w : FsWorld) (keywords : Dict) : Bool :=
  (decide (get_type keywords = some bFile) && w.isfile_type) ||
  (decide (get_type keywords = some bDir) && w.isdir_type) ||
  (decide (get_type keywords = some bLink) && w.islink_type)

/-- Source `size_eq`: `assert os.path.isfile(path)` (an `AssertionError`, not
an `OSError`, when the file is gone), then `os.path.getsize(path)` (may raise
`OSError`), then `int(keywords.get(b'size'))` (a `TypeError` when the `size`
attribute is absent, a `ValueError` when it is not a decimal literal). -/
def size_eq (w : FsWorld) (keywords : Dict) : Except PyErr Bool :=
  if w.isfile_size = false then .error .assertionError
  else
    match w.getsize with
    | .error _ => .error .osError
    | .ok n =>
        match dget keywords bSize with
        | none => .error .typeError
        | some s =>
            match pyIntOfBytes s with
            | none => .error .valueError
            | some m => .ok (decide (n = m))

/-- Python `bytes.decode('ascii')`: `none` models `UnicodeDecodeError`. -/
def asciiDecode (l : ByteStr) : Option String :=
  if l.all (fun b => decide (b ≤ 127)) then some (String.mk (l.map Char.ofNat)) else none

/-- Source `get_hash`: `'not a file'` when the path is no longer a regular
file, otherwise read the whole content (may raise `OSError`) and return the
lowercased hex digest.  The hash algorithm itself is an opaque parameter
producing the hex digest of a byte string. -/
def get_hash (isfileObs : Bool) (readObs : Except Unit ByteStr) (hashHex : ByteStr → String) :
    Except PyErr String :=
  if isfileObs = false then .ok "not a file"
  else
    match readObs with
    | .error _ => .error .osError
    | .ok content => .ok (strToLower (hashHex content))

/-- Source `hash_eq`: a falsy expected digest (absent key or empty bytes) is
no constraint; otherwise compare the lowercased ASCII-decoded expected digest
with the computed one.  `get_hash` runs before the expected digest is
decoded, as in the source. -/
def hash_eq (kwhash : Option ByteStr) (isfileObs : Bool) (readObs : Except Unit ByteStr)
    (hashHex : ByteStr → String) : Except PyErr Bool :=
  match kwhash with
  | none => .ok true
  | some [] => .ok true
  | some h =>
      match get_hash isfileObs readObs hashHex with
      | .error e => .error e
      | .ok realhash =>
          match asciiDecode h with
          | none => .error .unicodeDecodeError
          | some s => .ok (decide (strToLower s = realhash))

/-- The `try` body of `same_as_installed`:
`size_eq(...) and hash_eq(md5digest, ...) and hash_eq(sha256digest, ...)`,
with Python `and` short-circuiting on the first `False` and any exception
aborting the chain. -/
def verify_file_checks (md5 sha256 : ByteStr → String) (w : FsWorld) (keywords : Dict) :
    Except PyErr Bool :=
  match size_eq w keywords with
  | .error e => .error e
  | .ok false => .ok false
  | .ok true =>
      match hash_eq (dget keywords bMd5digest) w.isfile_md5 w.read_md5 md5 with
      | .error e => .error e
      | .ok false => .ok false
      | .ok true => hash_eq (dget keywords bSha256digest) w.isfile_sha w.read_sha sha256

/-- Source `same_as_installed`: type mismatch is `False`; a matching non-file
type is `True`; for files run the size/hash chain, catching only `OSError`,
and inside that handler `assert os.getuid() != 0` before returning `False`. -/
def same_as_installed (md5 sha256 : ByteStr → String) (w : FsWorld) (keywords : Dict) :
    Except PyErr Bool :=
  if type_eq w keywords = false then .ok false
  else if get_type keywords ≠ some bFile then .ok true
  else
    match verify_file_checks md5 sha256 w keywords with
    | .error .osError => if w.uid ≠ 0 then .ok false else .error .assertionError
    | r => r

/-- Wildcard-literal match of a regex-lite pattern at the start of a string:
`.` matches any character, everything else matches itself.  The hard-coded
ignore patterns use no other regex features. -/
def patMatchAt : List Char → List Char → Bool
  | [], _ => true
  | _ :: _, [] => false
  | p :: ps, c :: cs => (p == '.' || p == c) && patMatchAt ps cs

/-- Unanchored scan of `re.search`: try the pattern at every start position. -/
def reScan (pat : List Char) : List Char → Bool
  | [] => patMatchAt pat []
  | c :: cs => patMatchAt pat (c :: cs) || reScan pat cs

/-- `re.compile(pattern).search(s) is not None` for the regex-lite patterns of
the ignore table: a leading `^` anchors the match at the start. -/
def regexSearch (pattern : String) (s : String) : Bool :=
  match pattern.data with
  | '^' :: ps => patMatchAt ps s.data
  | ps => reScan ps s.data

/-- The hard-coded `IGNORED_PATH_CHECKERS` pattern table, in source order. -/
def IGNORED_PATH_PATTERNS : List String :=
  ["^/home/",
   "^/tmp/", "^/dev/", "^/proc/", "^/sys/", "^/run/",
   "^/etc/ca-certificates/extracted/",
   "^/usr/share/mime/",
   "^/etc/ssl/certs/",
   "^/boot/EFI/BOOT/icons",
   "^/etc/pacman.d/gnupg/",
   "^/var/cache/",
   "^/var/log/",
   "^/var/tmp/",
   "^/var/lib/docker",
   "^/var/lib/pacman/",
   "^/var/lib/systemd/coredump/",
   "/.cache/",
   "^/swap"]

/-- Source `is_ignored_path`: any pattern of the table matches. -/
def is_ignored_path (path : String) : Bool :=
  IGNORED_PATH_PATTERNS.any (fun pat => regexSearch pat path)

/-- The pure core of `compare_pacman_and_filesystem`, parameterised over the
ignore predicate and the per-path verifier: `new` is the untracked real paths
surviving the ignore filter, `missing` the tracked paths absent from disk,
`changed` the tracked present paths the verifier reports as not same.  The
verifier receives `mtree_keywords[path]`, which is defined on every changed
candidate because candidates are drawn from the tracked keys. -/
def compare_core (mtree_keywords : List (String × Dict)) (real_files : Finset String)
    (ignore : String → Bool) (same : String → Dict → Bool) :
    Finset String × Finset String × Finset String :=
  (((real_files \ (mtree_keywords.map Prod.fst).toFinset).filter (fun p => ignore p = false)),
   (mtree_keywords.map Prod.fst).toFinset \ real_files,
   ((real_files ∩ (mtree_keywords.map Prod.fst).toFinset).filter
      (fun p => same p ((dget mtree_keywords p).getD []) = false)))

/-- Source `compare_pacman_and_filesystem`, with the I/O already performed:
the parsed database and the filesystem snapshot are inputs, the ignore filter
is the hard-coded `is_ignored_path`, and the verifier is a parameter standing
for `same_as_installed` at the live filesystem. -/
def compare_pacman_and_filesystem (mtree_keywords : List (String × Dict))
    (real_files : Finset String) (same : String → Dict → Bool) :
    Finset String × Finset String × Finset String :=
  compare_core mtree_keywords real_files is_ignored_path same

/-- The three octal-digit bytes encoding a byte value below 256. -/
def octalByteDigits (b : Nat) : ByteStr := [48 + b / 64, 48 + b / 8 % 8, 48 + b % 8]

/-- The manifest of the spec's directory-context example: `./usr` (dir),
`lib` (file), `..`, `bin` (file). -/
def contextExampleLines : List ByteStr :=
  [strBytes "#mtree", strBytes "./usr type=dir", strBytes "lib type=file",
   strBytes "..", strBytes "bin type=file"]

/-- The directory-context example rewritten with slash-free relative entries,
on which the parser's context mechanism actually engages. -/
def contextAmendedLines : List ByteStr :=
  [strBytes "#mtree", strBytes "usr type=dir", strBytes "lib type=file",
   strBytes ".. type=dir", strBytes "bin type=file"]

/-- A manifest exercising the global-attribute scope: `/set` of two keys,
an entry, `/unset` of one key, an entry, `/unset` of a never-set key, an
entry. -/
def scopeExampleLines : List ByteStr :=
  [strBytes "#mtree", strBytes "/set type=file x=1", strBytes "a",
   strBytes "/unset x", strBytes "b", strBytes "/unset never", strBytes "c"]

/-- Expected attributes of a directory entry. -/
def kwDirOnly : Dict := [(bType, bDir)]

/-- Expected attributes of a file of size 3, no digests. -/
def kwFileSize3 : Dict := [(bType, bFile), (bSize, strBytes "3")]

/-- Expected attributes of a file entry with no `size` attribute. -/
def kwFileNoSize : Dict := [(bType, bFile)]

/-- Expected attributes of a file of size 3 with an md5 digest. -/
def kwFileMd5 : Dict := [(bType, bFile), (bSize, strBytes "3"), (bMd5digest, strBytes "aa")]

/-- A healthy unprivileged-run world: a regular file of size 3 whose content
reads as `abc` on every access. -/
def wFile3 : FsWorld :=
  { uid := 1000, isfile_type := true, isdir_type := false, islink_type := false,
    isfile_size := true, getsize := .ok 3,
    isfile_md5 := true, read_md5 := .ok (strBytes "abc"),
    isfile_sha := true, read_sha := .ok (strBytes "abc") }

/-- A world where the path is a directory. -/
def wDir : FsWorld := { wFile3 with isfile_type := false, isdir_type := true }

/-- A world where the file has size 4 instead of 3. -/
def wFile4 : FsWorld := { wFile3 with getsize := .ok 4 }

/-- A root-run world where `os.path.getsize` raises `OSError`. -/
def wOsErrorRoot : FsWorld := { wFile3 with uid := 0, getsize := .error () }

/-- An unprivileged-run world where `os.path.getsize` raises `OSError`. -/
def wOsErrorUser : FsWorld := { wFile3 with getsize := .error () }

/-- A world where the file vanishes between the type check and the size
check: `os.path.isfile` is true inside `type_eq` and false inside
`size_eq`. -/
def wVanished : FsWorld := { wFile3 with isfile_size := false }

/-- The size-4 world with both content observations failing. -/
def wFile4NoRead : FsWorld :=
  { wFile4 with
    isfile_md5 := false, read_md5 := .error (), isfile_sha := false, read_sha := .error () }

/-- The healthy size-3 world with the sha256 observations failing. -/
def wFile3NoSha : FsWorld := { wFile3 with isfile_sha := false, read_sha := .error () }

section PyDictLemmas

variable {α β : Type} [DecidableEq α]

theorem dget_dinsert (d : List (α × β)) (k : α) (v : β) (k' : α) :
    dget (dinsert d k v) k' = if k = k' then some v else dget d k' := by
  induction d with
  | nil => simp [dget, dinsert]
  | cons hd t ih =>
      obtain ⟨a, b⟩ := hd
      by_cases hak : a = k
      · subst hak
        by_cases h : a = k'
        · subst h
          simp [dinsert, dget]
        · simp [dinsert, dget, h]
      · by_cases h : a = k'
        · subst h
          have hk : ¬ k = a := fun hh => hak hh.symm
          simp [dinsert, dget, hak, hk]
        · simp [dinsert, dget, hak, h, ih]

theorem dget_derase (d : List (α × β)) (k k' : α) :
    dget (derase d k) k' = if k = k' then none else dget d k' := by
  induction d with
  | nil => simp [dget, derase]
  | cons hd t ih =>
      obtain ⟨a, b⟩ := hd
      by_cases hak : a = k
      · subst hak
        by_cases h : a = k'
        · subst h
          simp [derase, ih]
        · simp [derase, dget, h, ih]
      · by_cases h : a = k'
        · subst h
          have hk : ¬ k = a := fun hh => hak hh.symm
          simp [derase, dget, hak, hk]
        · simp [derase, dget, hak, h, ih]

theorem derase_of_dget_none (d : List (α × β)) (k : α) (h : dget d k = none) :
    derase d k = d := by
  induction d with
  | nil => rfl
  | cons hd t ih =>
      obtain ⟨a, b⟩ := hd
      by_cases hak : a = k
      · subst hak
        simp [dget] at h
      · simp only [dget, if_neg hak] at h
        simp [derase, if_neg hak, ih h]

theorem dget_dupdate (d e : List (α × β)) (k : α) :
    dget (dupdate d e) k =
      match dgetLast e k with
      | some v => some v
      | none => dget d k := by
  induction e generalizing d with
  | nil => simp [dupdate, dgetLast]
  | cons hd t ih =>
      obtain ⟨a, b⟩ := hd
      have step : dupdate d ((a, b) :: t) = dupdate (dinsert d a b) t := rfl
      rw [step, ih]
      cases hdg : dgetLast t k with
      | some w => simp [dgetLast, hdg]
      | none =>
          simp only [dgetLast, hdg]
          rw [dget_dinsert]
          by_cases hak : a = k
          · simp [hak]
          · simp [hak]

theorem dget_dictOf (e : List (α × β)) (k : α) :
    dget (dictOf e) k = dgetLast e k := by
  rw [dictOf, dget_dupdate]
  cases dgetLast e k <;> simp [dget]

theorem dget_dinsert_ne (d : List (α × β)) (k : α) (v : β) (k' : α) (h : ¬ k = k') :
    dget (dinsert d k v) k' = dget d k' := by
  rw [dget_dinsert, if_neg h]

theorem dget_eq_none_iff (d : List (α × β)) (k : α) :
    dget d k = none ↔ k ∉ d.map Prod.fst := by
  induction d with
  | nil => simp [dget]
  | cons hd t ih =>
      obtain ⟨a, b⟩ := hd
      by_cases hak : a = k
      · subst hak
        simp [dget]
      · have hka : ¬ k = a := fun hh => hak hh.symm
        rw [show dget ((a, b) :: t) k = dget t k from by simp [dget, hak], ih]
        simp [hka]

theorem mem_keys_dinsert (d : List (α × β)) (k : α) (v : β) (x : α) :
    x ∈ (dinsert d k v).map Prod.fst ↔ x = k ∨ x ∈ d.map Prod.fst := by
  induction d with
  | nil => simp [dinsert]
  | cons hd t ih =>
      obtain ⟨a, b⟩ := hd
      by_cases hak : a = k
      · subst hak
        simp [dinsert]
      · simp [dinsert, hak, ih]
        tauto

theorem nodup_keys_dinsert (d : List (α × β)) (k : α) (v : β)
    (h : (d.map Prod.fst).Nodup) : ((dinsert d k v).map Prod.fst).Nodup := by
  induction d with
  | nil => simp [dinsert]
  | cons hd t ih =>
      obtain ⟨a, b⟩ := hd
      simp only [List.map_cons, List.nodup_cons] at h
      by_cases hak : a = k
      · subst hak
        simpa [dinsert] using h
      · simp only [dinsert, if_neg hak, List.map_cons, List.nodup_cons]
        refine ⟨?_, ih h.2⟩
        rw [mem_keys_dinsert]
        rintro (rfl | hmem)
        · exact hak rfl
        · exact h.1 hmem

theorem nodup_keys_dupdate (d e : List (α × β)) (h : (d.map Prod.fst).Nodup) :
    ((dupdate d e).map Prod.fst).Nodup := by
  induction e generalizing d with
  | nil => exact h
  | cons q t ih =>
      have step : dupdate d (q :: t) = dupdate (dinsert d q.1 q.2) t := rfl
      rw [step]
      exact ih _ (nodup_keys_dinsert d q.1 q.2 h)

theorem nodup_keys_dictOf (e : List (α × β)) : ((dictOf e).map Prod.fst).Nodup :=
  nodup_keys_dupdate [] e (by simp)

theorem dgetLast_eq_dget_of_nodup (d : List (α × β)) (h : (d.map Prod.fst).Nodup) (k : α) :
    dgetLast d k = dget d k := by
  induction d with
  | nil => rfl
  | cons hd t ih =>
      obtain ⟨a, b⟩ := hd
      simp only [List.map_cons, List.nodup_cons] at h
      have ht := ih h.2
      by_cases hak : a = k
      · subst hak
        have hnone : dget t a = none := (dget_eq_none_iff t a).mpr h.1
        simp [dgetLast, dget, ht, hnone]
      · simp [dgetLast, dget, hak, ht]
        cases dget t k <;> simp

theorem dget_dupdate_dictOf (g e : List (α × β)) (k : α) :
    dget (dupdate g (dictOf e)) k =
      match dgetLast e k with
      | some v => some v
      | none => dget g k := by
  rw [dget_dupdate, dgetLast_eq_dget_of_nodup (dictOf e) (nodup_keys_dictOf e) k, dget_dictOf]

theorem dget_foldl_derase (l : List (α × β)) (g : List (α × β)) (k : α) :
    dget (l.foldl (fun d p => derase d p.1) g) k =
      if k ∈ l.map Prod.fst then none else dget g k := by
  induction l generalizing g with
  | nil => simp
  | cons q t ih =>
      have step : (q :: t).foldl (fun d p => derase d p.1) g =
          t.foldl (fun d p => derase d p.1) (derase g q.1) := rfl
      rw [step, ih, dget_derase]
      by_cases hqk : q.1 = k
      · simp [hqk]
      · have hkq : ¬ k = q.1 := fun hh => hqk hh.symm
        by_cases hmem : k ∈ t.map Prod.fst
        · simp [hqk, hmem]
        · simp [hqk, hmem, hkq]

theorem foldl_derase_of_all_absent (l : List (α × β)) (g : List (α × β))
    (h : ∀ q ∈ l, dget g q.1 = none) :
    l.foldl (fun d p => derase d p.1) g = g := by
  induction l with
  | nil => rfl
  | cons q t ih =>
      have step : (q :: t).foldl (fun d p => derase d p.1) g =
          t.foldl (fun d p => derase d p.1) (derase g q.1) := rfl
      rw [step, derase_of_dget_none g q.1 (h q (by simp))]
      exact ih (fun r hr => h r (by simp [hr]))

end PyDictLemmas

theorem load_entries_from_dget (l : List (String × Dict)) :
    ∀ (acc m : List (String × Dict)), load_entries_from acc l = some m → ∀ p,
      dget m p =
        match dgetLast l p with
        | some kw => some kw
        | none => dget acc p := by
  induction l with
  | nil =>
      intro acc m h p
      simp only [load_entries_from, List.foldlM] at h
      cases h
      simp [dgetLast]
  | cons e t ih =>
      intro acc m h p
      obtain ⟨q, kw⟩ := e
      cases hstep : insert_mtree_entry acc q kw with
      | none => simp [load_entries_from, List.foldlM, hstep] at h
      | some acc' =>
          have ht : load_entries_from acc' t = some m := by
            simpa [load_entries_from, List.foldlM, hstep] using h
          have hacc' : dget acc' p = if q = p then some kw else dget acc p := by
            cases hprev : dget acc q with
            | some prev =>
                by_cases hty : get_type prev = get_type kw
                · have hval : acc' = dinsert acc q kw := by
                    have := hstep
                    simp [insert_mtree_entry, hprev, hty] at this
                    exact this.symm
                  rw [hval, dget_dinsert]
                · simp [insert_mtree_entry, hprev, hty] at hstep
            | none =>
                have hval : acc' = dinsert acc q kw := by
                  have := hstep
                  simp [insert_mtree_entry, hprev] at this
                  exact this.symm
                rw [hval, dget_dinsert]
          rw [ih acc' m ht p, hacc']
          cases hdg : dgetLast t p with
          | some v => simp [dgetLast, hdg]
          | none =>
              by_cases hqp : q = p <;> simp [dgetLast, hdg, hqp]

/-- C7: when the database loader meets a path that already has a recorded
entry, a differing `type` attribute is fatal (the step, and with it the whole
load, returns `none`); with agreeing types, or on first insertion, the new
entry's full attribute set replaces the stored one, so a successful load maps
every path to the attributes of the last entry parsed for it. -/
theorem c7_loader_conflict_and_overwrite :
    (∀ (acc : List (String × Dict)) (p : String) (kw prev : Dict),
      dget acc p = some prev → ¬ get_type prev = get_type kw →
        insert_mtree_entry acc p kw = none) ∧
    (∀ (acc : List (String × Dict)) (p : String) (kw prev : Dict),
      dget acc p = some prev → get_type prev = get_type kw →
        insert_mtree_entry acc p kw = some (dinsert acc p kw)) ∧
    (∀ (acc : List (String × Dict)) (p : String) (kw : Dict),
      dget acc p = none → insert_mtree_entry acc p kw = some (dinsert acc p kw)) ∧
    (∀ (acc : List (String × Dict)) (p : String) (kw prev : Dict) (l : List (String × Dict)),
      dget acc p = some prev → ¬ get_type prev = get_type kw →
        load_entries_from acc ((p, kw) :: l) = none) ∧
    (∀ (l m : List (String × Dict)),
      read_all_mtrees l = some m → ∀ p, dget m p = dgetLast l p) := by
  refine ⟨?_, ?_, ?_, ?_, ?_⟩
  · intro acc p kw prev h1 h2
    simp [insert_mtree_entry, h1, h2]
  · intro acc p kw prev h1 h2
    simp [insert_mtree_entry, h1, h2]
  · intro acc p kw h1
    simp [insert_mtree_entry, h1]
  · intro acc p kw prev l h1 h2
    simp [load_entries_from, List.foldlM, insert_mtree_entry, h1, h2]
  · intro l m h p
    have := load_entries_from_dget l [] m h p
    rw [this]
    cases dgetLast l p <;> simp [dget]

/-- Witness for C7: a type conflict on `/a` aborts the step and the load; a
type-consistent re-insertion overwrites; first insertion inserts; and after
loading two entries for `/a` the final mapping holds the second one. -/
theorem c7_loader_witness :
    insert_mtree_entry [("/a", kwFileNoSize)] "/a" kwDirOnly = none ∧
    insert_mtree_entry [("/a", kwFileNoSize)] "/a" kwFileSize3 =
      some (dinsert [("/a", kwFileNoSize)] "/a" kwFileSize3) ∧
    insert_mtree_entry [] "/a" kwFileNoSize = some (dinsert [] "/a" kwFileNoSize) ∧
    load_entries_from [("/a", kwFileNoSize)] [("/a", kwDirOnly)] = none ∧
    dget [("/a", kwFileSize3)] "/a" =
      dgetLast [("/a", kwFileNoSize), ("/a", kwFileSize3)] "/a" :=
  ⟨c7_loader_conflict_and_overwrite.1 [("/a", kwFileNoSize)] "/a" kwDirOnly kwFileNoSize
      (by decide) (by decide),
   c7_loader_conflict_and_overwrite.2.1 [("/a", kwFileNoSize)] "/a" kwFileSize3 kwFileNoSize
      (by decide) (by decide),
   c7_loader_conflict_and_overwrite.2.2.1 [] "/a" kwFileNoSize (by decide),
   c7_loader_conflict_and_overwrite.2.2.2.1 [("/a", kwFileNoSize)] "/a" kwDirOnly kwFileNoSize []
      (by decide) (by decide),
   c7_loader_conflict_and_overwrite.2.2.2.2 [("/a", kwFileNoSize), ("/a", kwFileSize3)]
      [("/a", kwFileSize3)] (by decide) "/a"⟩

/-- C8: in the parser's global-attribute scope, `/set` merges its parsed
key/value pairs with existing keys overwritten (the merged value of a key is
its last parsed binding when present, else the old global value); `/unset`
removes exactly the named keys, leaves other keys untouched, and is a
complete no-op — the scope value is unchanged — when none of the named keys
is set; a path line yields the global scope merged with its per-entry
attributes (per-entry bindings winning) while returning the global scope
itself unchanged for subsequent lines.  The final conjunct runs the whole
parser on a `/set` / `/unset` example, including `/unset` of a never-set
key. -/
theorem c8_scope_rules :
    (∀ (g : Dict) (root : String) (rest : List ByteStr),
      processWords g root (strBytes "/set" :: rest) =
        some (dupdate g (dictOf (rest.map parse_keyword)), root, none)) ∧
    (∀ (g : Dict) (e : List (ByteStr × ByteStr)) (k : ByteStr),
      dget (dupdate g (dictOf e)) k =
        match dgetLast e k with
        | some v => some v
        | none => dget g k) ∧
    (∀ (g : Dict) (root : String) (rest : List ByteStr),
      processWords g root (strBytes "/unset" :: rest) =
        some ((dictOf (rest.map parse_keyword)).foldl (fun d p => derase d p.1) g, root, none)) ∧
    (∀ (g : Dict) (e : List (ByteStr × ByteStr)) (k : ByteStr),
      dget ((dictOf e).foldl (fun d p => derase d p.1) g) k =
        if dget (dictOf e) k = none then dget g k else none) ∧
    (∀ (g : Dict) (e : List (ByteStr × ByteStr)),
      (∀ q ∈ dictOf e, dget g q.1 = none) →
        (dictOf e).foldl (fun d p => derase d p.1) g = g) ∧
    (∀ (g : Dict) (root : String) (w : ByteStr) (rest : List ByteStr) (path : String),
      ¬ w = strBytes "/set" → ¬ w = strBytes "/unset" → parse_path w = some path →
        processWords g root (w :: rest) =
          some (g,
            (if get_type (dupdate g (dictOf (rest.map parse_keyword))) = some bDir ∧
                containsChar '/' path = false
             then normpath (pjoin root path) else root),
            some (normpath (pjoin root path), dupdate g (dictOf (rest.map parse_keyword))))) ∧
    (parse_mtree scopeExampleLines "/").map
        (fun es => es.map (fun e => (e.1, dget e.2 (strBytes "x")))) =
      some [("/a", some (strBytes "1")), ("/b", none), ("/c", none)] := by
  refine ⟨?_, ?_, ?_, ?_, ?_, ?_, by decide⟩
  · intro g root rest
    simp [processWords]
  · intro g e k
    have h := dget_dupdate_dictOf g e k
    rw [h]
    cases dgetLast e k <;> rfl
  · intro g root rest
    have hne : ¬ (strBytes "/unset" = strBytes "/set") := by decide
    simp [processWords, hne]
  · intro g e k
    rw [dget_foldl_derase]
    by_cases hmem : k ∈ (dictOf e).map Prod.fst
    · have : ¬ dget (dictOf e) k = none := by
        rw [dget_eq_none_iff]
        simpa using hmem
      simp [hmem, this]
    · have : dget (dictOf e) k = none := (dget_eq_none_iff _ _).mpr hmem
      simp [hmem, this]
  · intro g e h
    exact foldl_derase_of_all_absent (dictOf e) g h
  · intro g root w rest path h1 h2 hpp
    simp [processWords, if_neg h1, if_neg h2, hpp]

/-- Witness for C8: `/unset never` on a scope holding only `type` is a
complete no-op, and the entry line `a type=file` yields its merged attribute
set while returning the global scope unchanged. -/
theorem c8_scope_witness :
    ((dictOf ([parse_keyword (strBytes "never")])).foldl (fun d p => derase d p.1) kwDirOnly
        = kwDirOnly) ∧
    processWords kwDirOnly "/" (strBytes "a" :: [strBytes "type=file"]) =
      some (kwDirOnly,
        (if get_type (dupdate kwDirOnly (dictOf ([strBytes "type=file"].map parse_keyword)))
              = some bDir ∧ containsChar '/' "a" = false
         then normpath (pjoin "/" "a") else "/"),
        some (normpath (pjoin "/" "a"),
          dupdate kwDirOnly (dictOf ([strBytes "type=file"].map parse_keyword)))) :=
  ⟨c8_scope_rules.2.2.2.2.1 kwDirOnly [parse_keyword (strBytes "never")] (by decide),
   c8_scope_rules.2.2.2.2.2.1 kwDirOnly "/" (strBytes "a") [strBytes "type=file"] "a"
     (by decide) (by decide) (by decide)⟩

/-- C1: for every tracked database, real path set, ignore predicate and
verifier, the reconciler returns exactly: `new` = the real paths not among
the tracked keys and not ignored; `missing` = the tracked keys not in the
real set; `changed` = the paths in both for which the verifier reports not
same; and the ignore predicate never influences `missing` or `changed`.  The
last conjunct ties the parameterised core to the source function, whose
ignore predicate is the hard-coded `is_ignored_path`. -/
theorem c1_reconciler_exact (tracked : List (String × Dict)) (real : Finset String)
    (ignore : String → Bool) (same : String → Dict → Bool) (p : String) :
    (p ∈ (compare_core tracked real ignore same).1 ↔
      p ∈ real ∧ p ∉ (tracked.map Prod.fst).toFinset ∧ ignore p = false) ∧
    (p ∈ (compare_core tracked real ignore same).2.1 ↔
      p ∈ (tracked.map Prod.fst).toFinset ∧ p ∉ real) ∧
    (p ∈ (compare_core tracked real ignore same).2.2 ↔
      p ∈ (tracked.map Prod.fst).toFinset ∧ p ∈ real ∧
        same p ((dget tracked p).getD []) = false) ∧
    (∀ ignore2 : String → Bool,
      (compare_core tracked real ignore2 same).2 = (compare_core tracked real ignore same).2) ∧
    compare_pacman_and_filesystem tracked real same = compare_core tracked real is_ignored_path same := by
  refine ⟨?_, ?_, ?_, ?_, rfl⟩
  · simp [compare_core, Finset.mem_filter, Finset.mem_sdiff]
    tauto
  · simp [compare_core, Finset.mem_sdiff]
  · simp [compare_core, Finset.mem_filter, Finset.mem_inter]
    tauto
  · intro ignore2
    rfl

/-- C2 counterexample: with an empty tracked database and the single real
path `/home/x` (which matches the hard-coded ignore table), the claimed
identity `new ∪ (tracked ∩ real) ∪ missing = real ∪ tracked` fails: the left
side is empty while the right side is `{/home/x}`. -/
theorem c2_partition_counterexample :
    ¬ ((compare_pacman_and_filesystem [] {"/home/x"} (fun _ _ => true)).1 ∪
        ((([] : List (String × Dict)).map Prod.fst).toFinset ∩ {"/home/x"}) ∪
        (compare_pacman_and_filesystem [] {"/home/x"} (fun _ _ => true)).2.1 =
      ({"/home/x"} : Finset String) ∪ (([] : List (String × Dict)).map Prod.fst).toFinset) := by
  decide

/-- C2 as amended: the identity holds once the left side also carries the
ignored untracked real paths, which the source's `new` deliberately drops:
`new ∪ (tracked ∩ real) ∪ missing ∪ {p ∈ real \ tracked : is_ignored_path p}
= real ∪ tracked`, and the three output sets are pairwise disjoint. -/
theorem c2_partition_amended (tracked : List (String × Dict)) (real : Finset String)
    (same : String → Dict → Bool) :
    ((compare_pacman_and_filesystem tracked real same).1 ∪
      ((tracked.map Prod.fst).toFinset ∩ real) ∪
      (compare_pacman_and_filesystem tracked real same).2.1 ∪
      ((real \ (tracked.map Prod.fst).toFinset).filter (fun p => is_ignored_path p = true)) =
        real ∪ (tracked.map Prod.fst).toFinset) ∧
    (compare_pacman_and_filesystem tracked real same).1 ∩
      (compare_pacman_and_filesystem tracked real same).2.1 = ∅ ∧
    (compare_pacman_and_filesystem tracked real same).1 ∩
      (compare_pacman_and_filesystem tracked real same).2.2 = ∅ ∧
    (compare_pacman_and_filesystem tracked real same).2.1 ∩
      (compare_pacman_and_filesystem tracked real same).2.2 = ∅ := by
  refine ⟨?_, ?_, ?_, ?_⟩
  · ext p
    simp only [compare_pacman_and_filesystem, compare_core, Finset.mem_union, Finset.mem_filter,
      Finset.mem_sdiff, Finset.mem_inter]
    by_cases hi : is_ignored_path p = true <;> by_cases ht : p ∈ (tracked.map Prod.fst).toFinset <;>
      by_cases hr : p ∈ real <;> simp [hi, ht, hr]
  · ext p
    simp only [compare_pacman_and_filesystem, compare_core, Finset.mem_inter, Finset.mem_filter,
      Finset.mem_sdiff, Finset.not_mem_empty, iff_false]
    tauto
  · ext p
    simp only [compare_pacman_and_filesystem, compare_core, Finset.mem_inter, Finset.mem_filter,
      Finset.mem_sdiff, Finset.not_mem_empty, iff_false]
    tauto
  · ext p
    simp only [compare_pacman_and_filesystem, compare_core, Finset.mem_inter, Finset.mem_filter,
      Finset.mem_sdiff, Finset.not_mem_empty, iff_false]
    tauto

/-- C5 counterexample: on the spec's own example manifest — `./usr`
(type=dir), `lib` (type=file), `..`, `bin` (type=file) — the parser resolves
the four entries to `/usr`, `/lib`, `/`, `/bin`, not to `/usr`, `/usr/lib`,
`/`, `/bin` as the claim states: `./usr` contains a `/`, so it never updates
the directory context, and the bare `..` line (whose merged attributes lack
`type=dir`) does not move the context either. -/
theorem c5_context_counterexample :
    (parse_mtree contextExampleLines "/").map (fun es => es.map Prod.fst) =
      some ["/usr", "/lib", "/", "/bin"] ∧
    ¬ (parse_mtree contextExampleLines "/").map (fun es => es.map Prod.fst) =
      some ["/usr", "/usr/lib", "/", "/bin"] := by
  exact ⟨by decide, by decide⟩

/-- C5 as amended: only a slash-free path word whose merged attributes say
`type=dir` updates the directory context, and a `..` entry is not
special-cased — it yields an entry for the parent path and moves the context
there only when its merged attributes say `type=dir`.  With the example
rewritten to slash-free entries `usr` (type=dir), `lib` (type=file), `..`
(type=dir), `bin` (type=file), each path resolves against the context in
effect when its line is processed: `/usr`, `/usr/lib`, `/` (yielded by the
`..` line itself), `/bin`. -/
theorem c5_context_amended :
    (parse_mtree contextAmendedLines "/").map (fun es => es.map Prod.fst) =
      some ["/usr", "/usr/lib", "/", "/bin"] := by
  decide

/-- C6: octal escapes are substituted with their raw byte values at the byte
level first — for every byte value and continuation, the escape rewrites to
exactly that byte before any text decoding — and only then is the whole byte
string decoded as UTF-8 once, so the two escapes `\303\204` (the bytes `0xC3
0x84`, each invalid UTF-8 on its own) decode to the single character `Ä`, as
in the source's own regression input. -/
theorem c6_octal_escapes_before_utf8 :
    (∀ (b : Nat) (rest : ByteStr), b < 256 →
      octalSub (92 :: octalByteDigits b ++ rest) = b :: octalSub rest) ∧
    parse_path (strBytes "go/issue27836.dir/\\303\\204foo.go") =
      some "go/issue27836.dir/Äfoo.go" ∧
    (parse_path (strBytes "\\303\\204")).map String.length = some 1 := by
  refine ⟨?_, by decide, by decide⟩
  intro b rest hb
  have h1 : isOctal (48 + b / 64) := by unfold isOctal; omega
  have h2 : isOctal (48 + b / 8 % 8) := by unfold isOctal; omega
  have h3 : isOctal (48 + b % 8) := by unfold isOctal; omega
  have hcond : (92 : Nat) = 92 ∧
      escapeDigits ((48 + b / 64) :: (48 + b / 8 % 8) :: (48 + b % 8) :: rest) = true := by
    refine ⟨rfl, ?_⟩
    simp [escapeDigits, h1, h2, h3]
  show octalSub (92 :: (48 + b / 64) :: (48 + b / 8 % 8) :: (48 + b % 8) :: rest) =
    b :: octalSub rest
  rw [octalSub, if_pos hcond]
  show octalVal (48 + b / 64) (48 + b / 8 % 8) (48 + b % 8) :: octalSub rest = b :: octalSub rest
  unfold octalVal
  congr 1
  omega

/-- Witness for C6: the escape `\303` followed by the byte `f` rewrites to
the raw byte `0xC3` before decoding. -/
theorem c6_octal_escapes_before_utf8_witness :
    octalSub (92 :: octalByteDigits 195 ++ [102]) = 195 :: octalSub [102] :=
  c6_octal_escapes_before_utf8.1 195 [102] (by decide)

/-- C3: a matching non-file type alone yields true, with no size or hash
check; for files the checks run in the order size, md5 (only if present),
sha256 (only if present), each short-circuiting: a failed size check yields
false for every hash function, every digest attribute value and every
content observation (no hash is computed); matching type and size with
neither digest attribute yields true regardless of content; and a failed md5
check yields false for every sha256 function and content observation. -/
theorem c3_verifier_order (md5f sha256f : ByteStr → String) (w : FsWorld) (keywords : Dict) :
    (¬ get_type keywords = some bFile → type_eq w keywords = true →
      same_as_installed md5f sha256f w keywords = .ok true) ∧
    (get_type keywords = some bFile → type_eq w keywords = true →
      size_eq w keywords = .ok false →
      ∀ (md5g sha256g : ByteStr → String) (im : Bool) (rm : Except Unit ByteStr)
        (ish : Bool) (rs : Except Unit ByteStr) (dm ds : ByteStr),
        same_as_installed md5g sha256g
          { w with isfile_md5 := im, read_md5 := rm, isfile_sha := ish, read_sha := rs }
          (dinsert (dinsert keywords bMd5digest dm) bSha256digest ds) = .ok false) ∧
    (get_type keywords = some bFile → type_eq w keywords = true →
      size_eq w keywords = .ok true →
      dget keywords bMd5digest = none → dget keywords bSha256digest = none →
      same_as_installed md5f sha256f w keywords = .ok true) ∧
    (get_type keywords = some bFile → type_eq w keywords = true →
      size_eq w keywords = .ok true →
      hash_eq (dget keywords bMd5digest) w.isfile_md5 w.read_md5 md5f = .ok false →
      ∀ (sha256g : ByteStr → String) (ish : Bool) (rs : Except Unit ByteStr),
        same_as_installed md5f sha256g { w with isfile_sha := ish, read_sha := rs } keywords
          = .ok false) := by
  refine ⟨?_, ?_, ?_, ?_⟩
  · intro hty hte
    simp [same_as_installed, hte, hty]
  · intro hty hte hsz md5g sha256g im rm ish rs dm ds
    have htype' :
        get_type (dinsert (dinsert keywords bMd5digest dm) bSha256digest ds) =
          get_type keywords := by
      unfold get_type
      rw [dget_dinsert_ne _ _ _ _ (by decide), dget_dinsert_ne _ _ _ _ (by decide)]
    have hsize' :
        dget (dinsert (dinsert keywords bMd5digest dm) bSha256digest ds) bSize =
          dget keywords bSize := by
      rw [dget_dinsert_ne _ _ _ _ (by decide), dget_dinsert_ne _ _ _ _ (by decide)]
    have hte' : type_eq { w with isfile_md5 := im, read_md5 := rm, isfile_sha := ish, read_sha := rs }
        (dinsert (dinsert keywords bMd5digest dm) bSha256digest ds) = true := by
      simpa [type_eq, htype'] using hte
    have hsz' : size_eq { w with isfile_md5 := im, read_md5 := rm, isfile_sha := ish, read_sha := rs }
        (dinsert (dinsert keywords bMd5digest dm) bSha256digest ds) = .ok false := by
      unfold size_eq at hsz ⊢
      simpa [hsize'] using hsz
    simp [same_as_installed, hte', htype', hty, verify_file_checks, hsz']
  · intro hty hte hsz hm hs
    simp [same_as_installed, hte, hty, verify_file_checks, hsz, hm, hs, hash_eq]
  · intro hty hte hsz hmd5 sha256g ish rs
    have hte' : type_eq { w with isfile_sha := ish, read_sha := rs } keywords = true := by
      simpa [type_eq] using hte
    have hsz' : size_eq { w with isfile_sha := ish, read_sha := rs } keywords = .ok true := by
      unfold size_eq at hsz ⊢
      simpa using hsz
    have hmd5' : hash_eq (dget keywords bMd5digest)
        ({ w with isfile_sha := ish, read_sha := rs } : FsWorld).isfile_md5
        ({ w with isfile_sha := ish, read_sha := rs } : FsWorld).read_md5 md5f = .ok false := by
      simpa using hmd5
    simp [same_as_installed, hte', hty, verify_file_checks, hsz', hmd5']

/-- Witness for C3: a matching directory with no checks; a size-3 file of
real size 4 rejected with arbitrary digests, hash functions and unreadable
content; a size-matched file with no digest attributes accepted; and a file
whose md5 check fails rejected with the sha256 observations arbitrary. -/
theorem c3_verifier_order_witness :
    same_as_installed (fun _ => "aa") (fun _ => "bb") wDir kwDirOnly = .ok true ∧
    same_as_installed (fun _ => "zz") (fun _ => "zz") wFile4NoRead
      (dinsert (dinsert kwFileSize3 bMd5digest (strBytes "aa")) bSha256digest (strBytes "bb"))
      = .ok false ∧
    same_as_installed (fun _ => "aa") (fun _ => "bb") wFile3 kwFileSize3 = .ok true ∧
    same_as_installed (fun _ => "bb") (fun _ => "zz") wFile3NoSha kwFileMd5 = .ok false :=
  ⟨(c3_verifier_order (fun _ => "aa") (fun _ => "bb") wDir kwDirOnly).1 (by decide) (by decide),
   (c3_verifier_order (fun _ => "aa") (fun _ => "bb") wFile4 kwFileSize3).2.1
     (by decide) (by decide) (by decide) (fun _ => "zz") (fun _ => "zz") false (.error ())
     false (.error ()) (strBytes "aa") (strBytes "bb"),
   (c3_verifier_order (fun _ => "aa") (fun _ => "bb") wFile3 kwFileSize3).2.2.1
     (by decide) (by decide) (by decide) (by decide) (by decide),
   (c3_verifier_order (fun _ => "bb") (fun _ => "zz") wFile3 kwFileMd5).2.2.2
     (by decide) (by decide) (by decide) (by decide) (fun _ => "zz") false (.error ())⟩

/-- C4 counterexample: in a root run (`uid = 0`) where `os.path.getsize`
raises `OSError`, the handler's `assert os.getuid() != 0` fails, so the
verifier raises `AssertionError` instead of returning false — the claim's
"regardless of who runs the program" does not hold. -/
theorem c4_oserror_counterexample :
    same_as_installed (fun _ => "") (fun _ => "") wOsErrorRoot kwFileSize3
      = .error .assertionError ∧
    ¬ same_as_installed (fun _ => "") (fun _ => "") wOsErrorRoot kwFileSize3 = .ok false := by
  exact ⟨by decide, by decide⟩

/-- C4 as amended: when the size/hash chain raises an `OSError` the verifier
recovers locally and returns false provided the process is not running as
root (`uid ≠ 0`); in a root run the same `OSError` trips the handler's
assert and an `AssertionError` propagates out of verification. -/
theorem c4_oserror_amended (md5f sha256f : ByteStr → String) (w : FsWorld) (keywords : Dict) :
    (type_eq w keywords = true → get_type keywords = some bFile → ¬ w.uid = 0 →
      verify_file_checks md5f sha256f w keywords = .error .osError →
      same_as_installed md5f sha256f w keywords = .ok false) ∧
    (type_eq w keywords = true → get_type keywords = some bFile → w.uid = 0 →
      verify_file_checks md5f sha256f w keywords = .error .osError →
      same_as_installed md5f sha256f w keywords = .error .assertionError) := by
  constructor
  · intro hte hty hu hv
    simp [same_as_installed, hte, hty, hv, hu]
  · intro hte hty hu hv
    simp [same_as_installed, hte, hty, hv, hu]

/-- Witness for C4: with `uid = 1000` and `getsize` raising, verification
returns false; with `uid = 0` it raises `AssertionError`. -/
theorem c4_oserror_amended_witness :
    same_as_installed (fun _ => "") (fun _ => "") wOsErrorUser kwFileSize3 = .ok false ∧
    same_as_installed (fun _ => "") (fun _ => "") wOsErrorRoot kwFileSize3
      = .error .assertionError :=
  ⟨(c4_oserror_amended (fun _ => "") (fun _ => "") wOsErrorUser kwFileSize3).1
     (by decide) (by decide) (by decide) (by decide),
   (c4_oserror_amended (fun _ => "") (fun _ => "") wOsErrorRoot kwFileSize3).2
     (by decide) (by decide) (by decide) (by decide)⟩

/-- C9: evaluation at the failing input.  When the file vanishes between the
type check (which still sees a regular file) and the size check, the `assert
os.path.isfile(path)` at the head of `size_eq` fails, and the resulting
`AssertionError` is not caught by the `except OSError` handler: verification
raises instead of returning not-same, contradicting the claim (and the
spec's "treated as failures, not crashes"). -/
theorem c9_vanished_file_raises :
    same_as_installed (fun _ => "") (fun _ => "") wVanished kwFileSize3
      = .error .assertionError ∧
    ¬ same_as_installed (fun _ => "") (fun _ => "") wVanished kwFileSize3 = .ok false := by
  exact ⟨by decide, by decide⟩

/-- C10: for every file entry with no `size` attribute, once the on-disk
type check passes and the file is still present and statable, verification
raises an uncaught `TypeError` from `int(None)` — only `OSError` is caught —
so verify is total only on entries carrying a `size` attribute. -/
theorem c10_missing_size_type_error (md5f sha256f : ByteStr → String) (w : FsWorld)
    (keywords : Dict) :
    get_type keywords = some bFile → type_eq w keywords = true →
    dget keywords bSize = none → w.isfile_size = true → (∃ n, w.getsize = .ok n) →
    same_as_installed md5f sha256f w keywords = .error .typeError := by
  intro hty hte hsz hf hn
  obtain ⟨n, hn⟩ := hn
  have hsize : size_eq w keywords = .error .typeError := by
    simp [size_eq, hf, hn, hsz]
  simp [same_as_installed, hte, hty, verify_file_checks, hsize]

/-- Witness for C10: a present, statable file whose expected attributes are
`type=file` with no size: verification ends in `TypeError`. -/
theorem c10_missing_size_type_error_witness :
    same_as_installed (fun _ => "") (fun _ => "") wFile3 kwFileNoSize = .error .typeError :=
  c10_missing_size_type_error (fun _ => "") (fun _ => "") wFile3 kwFileNoSize
    (by decide) (by decide) (by decide) (by decide) ⟨3, by decide⟩

end ArchiveSystem
